import Mathlib

/-!
Shallow embedding of the scanning/cleanup core of the `uncruft` disk-cleanup
tool (src/uncruft/{models,categories,scanner,cleaner,recursive_scanner}.py),
together with proofs about the behaviour its specification claims.

Modelling conventions:
* Python `str` is modelled as `List Char` (named `Str`), so string equality,
  slicing and concatenation are ordinary list operations.
* `pathlib.Path` values are modelled by their part lists (`List Str`), exactly
  the `Path.parts` view pathlib itself exposes.
* The filesystem is modelled by the inductive tree `FSEntry`; a directory
  listing is the `children` list of a `dir` node.  A `symlink` node models a
  symbolic link (never followed by the scanners, `Path.exists` on it is
  modelled as false, i.e. links are modelled dangling), and a `denied` node
  models an entry whose `stat`/`is_dir` raises `PermissionError`/`OSError`
  (the source swallows such exceptions per entry).  A directory whose listing
  itself raises is observationally a `dir` with no children.
* Machine integers do not overflow in the modelled code (sizes are Python
  ints), so sizes/counts are `Nat` and timestamps are `Int`.
* `subprocess.run` of a native cleanup command is modelled by a `CmdOutcome`
  value describing how the command finished.
* Python truthiness of `Optional[str]` values (`if error:`), which treats both
  `None` and `""` as false, is modelled by `strTruthy`.
-/

namespace Uncruft

/-- Python strings as lists of characters. -/
abbrev Str := List Char

/-- Python `s.startswith(pre)`. -/
def pyStartsWith (s pre : Str) : Bool :=
  pre.isPrefixOf s

/-- Python truthiness of an `Optional[str]`: `None` and `""` are falsy. -/
def strTruthy : Option Str → Bool
  | some s => !s.isEmpty
  | none => false

/-- Risk level of a cleanup category (models.py `RiskLevel`). -/
inductive RiskLevel where
  | safe
  | review
  | risky
deriving DecidableEq, Repr

/-- Cleanup-category descriptor (models.py `Category`).  Only the fields the
scanning/cleanup core reads are modelled; the purely descriptive knowledge-base
text fields (`description`, `consequences`, `what_is_it`, ...) are presentation
data the core never consults. -/
structure Category where
  id : Str
  name : Str
  paths : List Str := []
  risk_level : RiskLevel
  glob_patterns : List Str := []
  search_roots : List Str := []
  is_recursive : Bool := false
  min_size_bytes : Nat := 0
  cleanup_command : Option Str := none
deriving Repr

/-- Result of scanning one category (models.py `ScanResult`).  The source
field `exists` is a reserved word in Lean, so it is called `exists_` here. -/
structure ScanResult where
  category_id : Str
  category_name : Str
  path : Str
  size_bytes : Nat
  file_count : Nat := 0
  dir_count : Nat := 0
  risk_level : RiskLevel
  exists_ : Bool := true
  error : Option Str := none
deriving DecidableEq, Repr

/-- Result of one cleanup attempt (models.py `CleanupResult`). -/
structure CleanupResult where
  category_id : Str
  path : Str
  bytes_freed : Nat
  files_deleted : Nat := 0
  success : Bool := true
  error : Option Str := none
  dry_run : Bool := false
deriving DecidableEq, Repr

/-- The static category registry (categories.py `CATEGORIES`), an insertion
ordered dict modelled as an association list. -/
def CATEGORIES : List (Str × Category) := [
  ("conda_cache".data,
    { id := "conda_cache".data, name := "Conda Package Cache".data,
      paths := ["~/miniconda3/pkgs".data, "~/anaconda3/pkgs".data,
                "~/opt/miniconda3/pkgs".data, "~/opt/anaconda3/pkgs".data,
                "~/.conda/pkgs".data],
      risk_level := RiskLevel.safe,
      cleanup_command := some "conda clean --all --yes".data }),
  ("npm_cache".data,
    { id := "npm_cache".data, name := "NPM Cache".data,
      paths := ["~/.npm/_cacache".data, "~/.npm/_logs".data],
      risk_level := RiskLevel.safe,
      cleanup_command := some "npm cache clean --force".data }),
  ("yarn_cache".data,
    { id := "yarn_cache".data, name := "Yarn Cache".data,
      paths := ["~/.yarn/cache".data, "~/Library/Caches/Yarn".data],
      risk_level := RiskLevel.safe,
      cleanup_command := some "yarn cache clean".data }),
  ("pip_cache".data,
    { id := "pip_cache".data, name := "Pip Cache".data,
      paths := ["~/Library/Caches/pip".data, "~/.cache/pip".data],
      risk_level := RiskLevel.safe,
      cleanup_command := some "pip cache purge".data }),
  ("homebrew_cache".data,
    { id := "homebrew_cache".data, name := "Homebrew Cache".data,
      paths := ["~/Library/Caches/Homebrew".data, "/usr/local/Caskroom/.cache".data],
      risk_level := RiskLevel.safe,
      cleanup_command := some "brew cleanup --prune=all".data }),
  ("chrome_cache".data,
    { id := "chrome_cache".data, name := "Chrome Cache".data,
      paths := ["~/Library/Caches/Google/Chrome".data,
                "~/Library/Application Support/Google/Chrome/Default/Cache".data,
                "~/Library/Application Support/Google/Chrome/Default/Code Cache".data],
      risk_level := RiskLevel.safe }),
  ("safari_cache".data,
    { id := "safari_cache".data, name := "Safari Cache".data,
      paths := ["~/Library/Caches/com.apple.Safari".data,
                "~/Library/Caches/com.apple.Safari.SafeBrowsing".data],
      risk_level := RiskLevel.safe }),
  ("edge_cache".data,
    { id := "edge_cache".data, name := "Microsoft Edge Cache".data,
      paths := ["~/Library/Caches/com.microsoft.Edge".data,
                "~/Library/Application Support/Microsoft Edge/Default/Cache".data],
      risk_level := RiskLevel.safe }),
  ("firefox_cache".data,
    { id := "firefox_cache".data, name := "Firefox Cache".data,
      paths := ["~/Library/Caches/Firefox".data],
      risk_level := RiskLevel.safe }),
  ("xcode_derived_data".data,
    { id := "xcode_derived_data".data, name := "Xcode DerivedData".data,
      paths := ["~/Library/Developer/Xcode/DerivedData".data],
      risk_level := RiskLevel.safe }),
  ("xcode_archives".data,
    { id := "xcode_archives".data, name := "Xcode Archives".data,
      paths := ["~/Library/Developer/Xcode/Archives".data],
      risk_level := RiskLevel.review }),
  ("system_logs".data,
    { id := "system_logs".data, name := "System Logs".data,
      paths := ["~/Library/Logs".data, "/var/log".data],
      risk_level := RiskLevel.safe }),
  ("application_caches".data,
    { id := "application_caches".data, name := "Application Caches".data,
      paths := ["~/Library/Caches".data],
      risk_level := RiskLevel.safe }),
  ("trash".data,
    { id := "trash".data, name := "Trash".data,
      paths := ["~/.Trash".data],
      risk_level := RiskLevel.review }),
  ("docker_data".data,
    { id := "docker_data".data, name := "Docker Data".data,
      paths := ["~/Library/Containers/com.docker.docker/Data/vms".data],
      risk_level := RiskLevel.review,
      cleanup_command := some "docker system prune -a".data }),
  ("huggingface_cache".data,
    { id := "huggingface_cache".data, name := "HuggingFace Models".data,
      paths := ["~/.cache/huggingface".data],
      risk_level := RiskLevel.review }),
  ("downloads_old".data,
    { id := "downloads_old".data, name := "Downloads (Old Files)".data,
      paths := ["~/Downloads".data],
      risk_level := RiskLevel.review }),
  ("ios_backups".data,
    { id := "ios_backups".data, name := "iOS Backups".data,
      paths := ["~/Library/Application Support/MobileSync/Backup".data],
      risk_level := RiskLevel.review }),
  ("xcode_simulators".data,
    { id := "xcode_simulators".data, name := "Xcode Simulators".data,
      paths := ["~/Library/Developer/CoreSimulator/Devices".data],
      risk_level := RiskLevel.review,
      cleanup_command := some "xcrun simctl delete unavailable".data }),
  ("slack_cache".data,
    { id := "slack_cache".data, name := "Slack Cache".data,
      paths := ["~/Library/Application Support/Slack/Cache".data,
                "~/Library/Application Support/Slack/Service Worker/CacheStorage".data],
      risk_level := RiskLevel.safe }),
  ("spotify_cache".data,
    { id := "spotify_cache".data, name := "Spotify Cache".data,
      paths := ["~/Library/Caches/com.spotify.client".data],
      risk_level := RiskLevel.safe }),
  ("vscode_cache".data,
    { id := "vscode_cache".data, name := "VS Code Cache".data,
      paths := ["~/Library/Application Support/Code/Cache".data,
                "~/Library/Application Support/Code/CachedData".data,
                "~/Library/Application Support/Code/CachedExtensions".data],
      risk_level := RiskLevel.safe }),
  ("gradle_cache".data,
    { id := "gradle_cache".data, name := "Gradle Cache".data,
      paths := ["~/.gradle/caches".data],
      risk_level := RiskLevel.safe }),
  ("maven_cache".data,
    { id := "maven_cache".data, name := "Maven Cache".data,
      paths := ["~/.m2/repository".data],
      risk_level := RiskLevel.safe }),
  ("cocoapods_cache".data,
    { id := "cocoapods_cache".data, name := "CocoaPods Cache".data,
      paths := ["~/Library/Caches/CocoaPods".data],
      risk_level := RiskLevel.safe,
      cleanup_command := some "pod cache clean --all".data }),
  ("node_modules".data,
    { id := "node_modules".data, name := "Node Modules".data,
      paths := [],
      glob_patterns := ["**/node_modules".data],
      search_roots := ["~/Documents".data, "~/Code".data, "~/Projects".data,
                       "~/Developer".data, "~/repos".data, "~/src".data],
      is_recursive := true,
      min_size_bytes := 10 * 1024 * 1024,
      risk_level := RiskLevel.safe }),
  ("python_venvs".data,
    { id := "python_venvs".data, name := "Python Virtual Environments".data,
      paths := [],
      glob_patterns := ["**/.venv".data, "**/venv".data, "**/.virtualenv".data, "**/env".data],
      search_roots := ["~/Documents".data, "~/Code".data, "~/Projects".data,
                       "~/Developer".data, "~/repos".data, "~/src".data],
      is_recursive := true,
      min_size_bytes := 50 * 1024 * 1024,
      risk_level := RiskLevel.safe }),
  ("pycache".data,
    { id := "pycache".data, name := "Python Cache (__pycache__)".data,
      paths := [],
      glob_patterns := ["**/__pycache__".data],
      search_roots := ["~/Documents".data, "~/Code".data, "~/Projects".data,
                       "~/Developer".data, "~/repos".data, "~/src".data],
      is_recursive := true,
      min_size_bytes := 1 * 1024 * 1024,
      risk_level := RiskLevel.safe }),
  ("build_artifacts".data,
    { id := "build_artifacts".data, name := "Build Artifacts".data,
      paths := [],
      glob_patterns := ["**/dist".data, "**/build".data, "**/.build".data],
      search_roots := ["~/Documents".data, "~/Code".data, "~/Projects".data,
                       "~/Developer".data, "~/repos".data, "~/src".data],
      is_recursive := true,
      min_size_bytes := 10 * 1024 * 1024,
      risk_level := RiskLevel.review }),
  ("cargo_cache".data,
    { id := "cargo_cache".data, name := "Rust Cargo Cache".data,
      paths := ["~/.cargo/registry".data, "~/.cargo/git".data],
      risk_level := RiskLevel.safe }),
  ("go_cache".data,
    { id := "go_cache".data, name := "Go Module Cache".data,
      paths := ["~/go/pkg/mod".data, "~/Library/Caches/go-build".data],
      risk_level := RiskLevel.safe,
      cleanup_command := some "go clean -modcache".data }),
  ("target_dirs".data,
    { id := "target_dirs".data, name := "Rust Target Directories".data,
      paths := [],
      glob_patterns := ["**/target".data],
      search_roots := ["~/Documents".data, "~/Code".data, "~/Projects".data,
                       "~/Developer".data, "~/repos".data, "~/src".data],
      is_recursive := true,
      min_size_bytes := 100 * 1024 * 1024,
      risk_level := RiskLevel.safe }),
  ("dotnet_cache".data,
    { id := "dotnet_cache".data, name := ".NET/NuGet Cache".data,
      paths := ["~/.nuget/packages".data, "~/.dotnet".data],
      risk_level := RiskLevel.safe,
      cleanup_command := some "dotnet nuget locals all --clear".data })]

/-- Registry lookup (categories.py `get_category` / `CATEGORIES.get`). -/
def get_category (category_id : Str) : Option Category :=
  (CATEGORIES.find? (fun p => p.1 = category_id)).map (·.2)

/-- Filesystem entry as seen by one `os.scandir` listing: a regular file with
its size, a directory with its own listing, a symbolic link (never followed;
modelled dangling, so `Path.exists` on it is false), or an entry whose
`stat`/`is_dir` raises and which the source therefore skips. -/
inductive FSEntry where
  | file (name : Str) (size : Nat)
  | dir (name : Str) (children : List FSEntry)
  | symlink (name : Str)
  | denied (name : Str)
deriving Repr

/-- Name of a filesystem entry (`os.DirEntry.name`). -/
def FSEntry.entryName : FSEntry → Str
  | .file n _ => n
  | .dir n _ => n
  | .symlink n => n
  | .denied n => n

/-- A filesystem: what (if anything) sits at each absolute path string.
`none` means the path does not exist. -/
abbrev FileSystem := Str → Option FSEntry

/-- Python `Path.exists()` on what the filesystem holds at a path (symbolic
links are modelled dangling, so they report non-existence). -/
def pathExistsb : Option FSEntry → Bool
  | some (.symlink _) => false
  | some _ => true
  | none => false

/-- Path expansion (scanner.py `expand_path`): `os.path.expanduser`, replacing
a leading `~` with the home directory.  No entry of the registry or the
deny-list uses environment variables, so `expandvars` is the identity here. -/
def expand_path (home : Str) (p : Str) : Str :=
  if p = "~".data then home
  else if pyStartsWith p "~/".data then home ++ p.drop 1
  else p

/-- Worker of scanner.py `get_directory_size_fast._scan`: totals
`(total_size, file_count, dir_count)` over one directory listing.  `fuel` is
`max_depth - depth + 1`, so `fuel = 0` corresponds to the `depth > max_depth`
early return and a sub-listing is scanned with one unit of fuel less.
Files are summed and subdirectories counted at the listing that contains
them; symlinks are skipped (`follow_symlinks=False`) and entries whose `stat`
raises contribute nothing. -/
def scanDir : Nat → List FSEntry → Nat × Nat × Nat
  | 0, _ => (0, 0, 0)
  | fuel + 1, entries =>
    entries.foldr
      (fun e r =>
        match e with
        | .file _ sz => (sz + r.1, 1 + r.2.1, r.2.2)
        | .dir _ children =>
          let sub := scanDir fuel children
          (sub.1 + r.1, sub.2.1 + r.2.1, 1 + sub.2.2 + r.2.2)
        | .symlink _ => r
        | .denied _ => r)
      (0, 0, 0)

/-- Directory size computation (scanner.py `get_directory_size_fast`): scans
the listing of `root` with the depth budget `max_depth` (default 20).
`os.scandir` on a non-directory raises, which the source swallows, giving
zero totals. -/
def get_directory_size_fast (root : FSEntry) (max_depth : Nat := 20) : Nat × Nat × Nat :=
  match root with
  | .dir _ children => scanDir (max_depth + 1) children
  | _ => (0, 0, 0)

/-- The shared size cache (scanner.py `_size_cache`): absolute path string to
`(size, files, dirs, cached_at)`. -/
abbrev SizeCache := Str → Option ((Nat × Nat × Nat) × Int)

/-- Cache time-to-live in seconds (scanner.py `CACHE_TTL`). -/
def CACHE_TTL : Int := 300

/-- Size measurement of whatever the filesystem holds at `path` (the body of a
cache miss in `get_directory_size_cached`: `get_directory_size_fast(path)`,
where a missing path makes `os.scandir` raise and yields zero totals). -/
def measureAt (fs : FileSystem) (path : Str) (max_depth : Nat) : Nat × Nat × Nat :=
  match fs path with
  | some e => get_directory_size_fast e max_depth
  | none => (0, 0, 0)

/-- Cached directory size computation (scanner.py `get_directory_size_cached`):
a cache hit younger than `CACHE_TTL` is returned as is; otherwise the path is
rescanned and the entry replaced with timestamp `now`.  Returns the triple and
the cache state after the call. -/
def get_directory_size_cached (fs : FileSystem) (cache : SizeCache) (path : Str)
    (now : Int) (max_depth : Nat := 20) : (Nat × Nat × Nat) × SizeCache :=
  match cache path with
  | some (v, cached_at) =>
    if now - cached_at < CACHE_TTL then (v, cache)
    else
      let v' := measureAt fs path max_depth
      (v', fun k => if k = path then some (v', now) else cache k)
  | none =>
    let v' := measureAt fs path max_depth
    (v', fun k => if k = path then some (v', now) else cache k)

/-- Aggregation of several same-category scan results into one (scanner.py
`aggregate_category_results`). -/
def aggregate_category_results (results : List ScanResult) : Option ScanResult :=
  match results with
  | [] => none
  | first :: _ =>
    let existing_paths := (results.filter (fun r => r.exists_ && decide (0 < r.size_bytes))).map (·.path)
    let display_path := existing_paths.headD first.path
    let total_size := (results.map (·.size_bytes)).sum
    let total_files := (results.map (·.file_count)).sum
    let total_dirs := (results.map (·.dir_count)).sum
    let any_exists := results.any (·.exists_)
    let errors := results.filterMap (fun r => if strTruthy r.error then r.error else none)
    some { category_id := first.category_id, category_name := first.category_name,
           path := display_path, size_bytes := total_size, file_count := total_files,
           dir_count := total_dirs, risk_level := first.risk_level,
           exists_ := any_exists,
           error := if errors.isEmpty then none else some (List.intercalate "; ".data errors) }

/-- Paths that must never be deleted (cleaner.py `BLOCKED_PATHS`). -/
def BLOCKED_PATHS : List Str :=
  ["~/Documents".data, "~/Desktop".data, "~/Pictures".data, "~/Music".data,
   "~/Movies".data, "~/Code".data, "~/Projects".data, "~/Work".data,
   "/System".data, "/Library".data, "/Applications".data, "/usr".data,
   "/bin".data, "/sbin".data, "/var".data, "/private".data, "/Users".data,
   "~".data]

/-- Maximum size for a single cleanup (cleaner.py `MAX_CLEANUP_BYTES`). -/
def MAX_CLEANUP_BYTES : Nat := 100 * 1024 ^ 3

/-- Loop of cleaner.py `is_path_safe` over the deny-list, followed by the
final home-directory check.  The loop returns `false` only on an exact match
with an expanded deny-list entry (the `startswith` test guards a branch whose
only effect is that same exact-match check). -/
def isPathSafeGo (home path : Str) : List Str → Bool
  | [] => if path = home then false else true
  | blocked :: rest =>
    if path = expand_path home blocked ∨
       pyStartsWith path (expand_path home blocked ++ "/".data) then
      if path = expand_path home blocked then false else isPathSafeGo home path rest
    else isPathSafeGo home path rest

/-- Safety check before deletion (cleaner.py `is_path_safe`). -/
def is_path_safe (home path : Str) : Bool :=
  isPathSafeGo home path BLOCKED_PATHS

/-- How the OS-level removal (`Path.unlink` / `shutil.rmtree`) of an existing
path finishes: success, or a raised `PermissionError` / `OSError`.  The
source wraps measurement and removal in one `try`, so removal can fail after
a successful measurement (e.g. a permission error on a nested entry); whether
it does is environmental and not derivable from the directory tree alone, so
it is an explicit input of the model, like `CmdOutcome` for subprocesses. -/
inductive RemovalOutcome where
  | ok
  | permissionError (msg : Str)
  | osError (msg : Str)

/-- Deletion of one path (cleaner.py `delete_path`): returns
`((bytes_freed, files_deleted, error), state of the path afterwards)`.
A missing path yields zero totals and no error; otherwise the size is
measured first (`get_directory_size` at the default depth budget, i.e.
`scanDir 21`; the shared size cache it consults only affects staleness of
the numbers and is modelled as a fresh scan here), a dry run stops there,
and a real run removes the entry, reporting `(0, 0, error)` if the removal
itself raises (the on-disk remnants of a partially failed `rmtree` are not
modelled further: the path is left in place).
A `denied` entry models the `stat` call raising `PermissionError` already
during measurement, which the source catches and reports; the filesystem is
then untouched. -/
def delete_path (target : Option FSEntry) (dry_run : Bool := false)
    (removal : RemovalOutcome := RemovalOutcome.ok) :
    (Nat × Nat × Option Str) × Option FSEntry :=
  match target with
  | none => ((0, 0, none), none)
  | some (.symlink n) => ((0, 0, none), some (.symlink n))
  | some (.file n sz) =>
    if dry_run then ((sz, 1, none), some (.file n sz))
    else
      match removal with
      | .ok => ((sz, 1, none), none)
      | .permissionError msg =>
        ((0, 0, some ("Permission denied: ".data ++ msg)), some (.file n sz))
      | .osError msg =>
        ((0, 0, some ("OS error: ".data ++ msg)), some (.file n sz))
  | some (.dir n cs) =>
    let m := scanDir 21 cs
    if dry_run then ((m.1, m.2.1, none), some (.dir n cs))
    else
      match removal with
      | .ok => ((m.1, m.2.1, none), none)
      | .permissionError msg =>
        ((0, 0, some ("Permission denied: ".data ++ msg)), some (.dir n cs))
      | .osError msg =>
        ((0, 0, some ("OS error: ".data ++ msg)), some (.dir n cs))
  | some (.denied n) =>
    ((0, 0, some ("Permission denied: ".data ++ n)), some (.denied n))

/-- How a `subprocess.run` of a native cleanup command finished: normal exit
with a return code and stderr text, timeout, or an arbitrary raised
exception. -/
inductive CmdOutcome where
  | exited (returncode : Int) (stderr : Str)
  | timedOut
  | raised (msg : Str)

/-- Native cleanup command execution (cleaner.py `_run_native_cleanup`). -/
def run_native_cleanup (category_id : Str) (command : Str) (outcome : CmdOutcome)
    (dry_run : Bool) : CleanupResult :=
  if dry_run then
    { category_id := category_id, path := "[native command: ".data ++ command ++ "]".data,
      bytes_freed := 0, files_deleted := 0, success := true, dry_run := true }
  else
    match outcome with
    | .exited returncode stderr =>
      if returncode = 0 then
        { category_id := category_id, path := "[native command: ".data ++ command ++ "]".data,
          bytes_freed := 0, files_deleted := 0, success := true, dry_run := false }
      else
        { category_id := category_id, path := "[native command: ".data ++ command ++ "]".data,
          bytes_freed := 0, files_deleted := 0, success := false,
          error := some (if strTruthy (some stderr) then stderr else "Command failed".data),
          dry_run := false }
    | .timedOut =>
      { category_id := category_id, path := "[native command: ".data ++ command ++ "]".data,
        bytes_freed := 0, files_deleted := 0, success := false,
        error := some "Command timed out".data, dry_run := false }
    | .raised msg =>
      { category_id := category_id, path := "[native command: ".data ++ command ++ "]".data,
        bytes_freed := 0, files_deleted := 0, success := false,
        error := some msg, dry_run := false }

/-- State threaded through the path loop of `clean_category`:
`(total_bytes, total_files, errors, paths_cleaned)`. -/
abbrev CleanAcc := Nat × Nat × List Str × List Str

/-- One iteration of the path loop of cleaner.py `clean_category`.
`removal` says, per expanded path, how the OS-level removal would finish. -/
def cleanCategoryStep (home : Str) (fs : FileSystem)
    (removal : Str → RemovalOutcome) (dry_run : Bool)
    (acc : CleanAcc) (path_str : Str) : CleanAcc :=
  let path := expand_path home path_str
  if pathExistsb (fs path) = false then acc
  else if is_path_safe home path = false then
    (acc.1, acc.2.1, acc.2.2.1 ++ ["Blocked path: ".data ++ path], acc.2.2.2)
  else
    let r := (delete_path (fs path) dry_run (removal path)).1
    if strTruthy r.2.2 then
      (acc.1, acc.2.1, acc.2.2.1 ++ [path ++ ": ".data ++ r.2.2.getD []], acc.2.2.2)
    else
      (acc.1 + r.1, acc.2.1 + r.2.1, acc.2.2.1, acc.2.2.2 ++ [path])

/-- Category cleanup (cleaner.py `clean_category`).  The filesystem is the
per-path view presented to the loop; `outcome` is how the native command would
finish if it were run, and `removal` how each path's OS-level removal would
finish.  Returns `none` exactly when the source would raise `IndexError` on
`category.paths[0]` (nothing cleaned and no declared paths); the progress
callback has no observable effect on the result and is not modelled. -/
def clean_category (home : Str) (fs : FileSystem) (outcome : CmdOutcome)
    (removal : Str → RemovalOutcome) (category_id : Str) (dry_run : Bool := false) :
    Option CleanupResult :=
  match get_category category_id with
  | none =>
    some { category_id := category_id, path := [], bytes_freed := 0, files_deleted := 0,
           success := false, error := some ("Unknown category: ".data ++ category_id),
           dry_run := dry_run }
  | some category =>
    if strTruthy category.cleanup_command ∧ ¬ dry_run then
      some (run_native_cleanup category_id (category.cleanup_command.getD []) outcome dry_run)
    else
      let acc := category.paths.foldl (cleanCategoryStep home fs removal dry_run) (0, 0, [], [])
      match acc.2.2.2.head?.orElse (fun _ => category.paths.head?) with
      | none => none
      | some display =>
        some { category_id := category_id, path := display, bytes_freed := acc.1,
               files_deleted := acc.2.1, success := acc.2.2.1.isEmpty,
               error := if acc.2.2.1.isEmpty then none
                        else some (List.intercalate "; ".data acc.2.2.1),
               dry_run := dry_run }

/-- Pre-flight validation of a cleanup request (cleaner.py
`validate_cleanup_request`).  The source formats the offending size in GB
inside the over-limit message; the message text is abbreviated here, its
presence is what matters. -/
def validate_cleanup_request (category_ids : List Str) (total_bytes : Nat) :
    Bool × Option Str :=
  if total_bytes > MAX_CLEANUP_BYTES then
    (false, some "Cleanup exceeds safety limit".data)
  else
    match category_ids.find? (fun cat_id => (CATEGORIES.find? (fun p => p.1 = cat_id)).isNone) with
    | some cat_id => (false, some ("Unknown category: ".data ++ cat_id))
    | none => (true, none)

/-- Directories skipped during recursive discovery (recursive_scanner.py
`SKIP_DIRECTORIES`). -/
def SKIP_DIRECTORIES : List Str :=
  [".git".data, ".svn".data, ".hg".data, "Library".data, "Applications".data,
   ".Trash".data, "node_modules".data, ".venv".data, "venv".data, "__pycache__".data]

/-- Recursive worker of recursive_scanner.py `find_matching_directories`.
`root` is the part list of the directory whose listing `entries` is, and
matches are yielded as full part lists (`pathlib.Path.parts`).  Fuel counts
the remaining depth: `0` models the `max_depth <= 0` early return.  Only real
directories are considered (`is_dir(follow_symlinks=False)`; entries that
raise are skipped); hidden names are skipped unless they are venv names being
searched for, deny-listed names are skipped unless equal to the pattern, a
match is yielded and (with `skip_inside_match`) not recursed into. -/
def fmdGo (pattern : Str) (skip_inside_match : Bool) :
    Nat → List Str → List FSEntry → List (List Str)
  | 0, _, _ => []
  | max_depth + 1, root, entries =>
    entries.foldr
      (fun e acc =>
        (match e with
         | .dir name children =>
           if pyStartsWith name ".".data ∧ name ≠ pattern ∧
              (¬ (name = ".venv".data ∨ name = ".virtualenv".data) ∨
               ¬ (pattern = ".venv".data ∨ pattern = ".virtualenv".data)) then []
           else if name ∈ SKIP_DIRECTORIES ∧ name ≠ pattern then []
           else if name = pattern then
             (root ++ [name]) ::
               (if skip_inside_match then []
                else fmdGo pattern skip_inside_match max_depth (root ++ [name]) children)
           else fmdGo pattern skip_inside_match max_depth (root ++ [name]) children
         | _ => [])
        ++ acc)
      []

/-- Recursive directory discovery (recursive_scanner.py
`find_matching_directories`): all directories named `pattern` under the
directory with parts `root` and listing `entries`. -/
def find_matching_directories (root : List Str) (entries : List FSEntry)
    (pattern : Str) (max_depth : Nat := 15) (skip_inside_match : Bool := true) :
    List (List Str) :=
  fmdGo pattern skip_inside_match max_depth root entries

/-- Worker of `pyReplace`, recursing on a fuel bound. -/
def pyReplaceGo (pat rep : Str) : Nat → Str → Str
  | 0, s => s
  | fuel + 1, s =>
    match s with
    | [] => []
    | c :: rest =>
      if pat.isPrefixOf (c :: rest) then
        rep ++ pyReplaceGo pat rep fuel ((c :: rest).drop pat.length)
      else
        c :: pyReplaceGo pat rep fuel rest

/-- Python `s.replace(pat, rep)`: all non-overlapping occurrences, leftmost
first.  The recursive scanner only uses non-empty `pat` values.  The worker
recurses on a fuel of `s.length`, which is enough since every step consumes
at least one character of `s` when `pat` is non-empty. -/
def pyReplace (s pat rep : Str) : Str :=
  if pat = [] then s else pyReplaceGo pat rep s.length s

/-- Python `s.strip(c)` for a single strip character. -/
def pyStrip (s : Str) (c : Char) : Str :=
  ((s.dropWhile (· = c)).reverse.dropWhile (· = c)).reverse

/-- Pattern-name extraction in recursive_scanner.py `scan_recursive_category`:
`pattern.replace("**/", "").replace("*/", "").strip("/")`. -/
def patternName (pattern : Str) : Str :=
  pyStrip (pyReplace (pyReplace pattern "**/".data []) "*/".data []) '/'

/-- Subtree lookup along a relative part list (how a path yielded by the
discovery engine is resolved back to its directory node for measuring). -/
def subtreeAt : List Str → FSEntry → Option FSEntry
  | [], e => some e
  | n :: rest, .dir _ cs =>
    match cs.find? (fun c => c.entryName = n) with
    | some c => subtreeAt rest c
    | none => none
  | _ :: _, _ => none

/-- Rendering of a part list back to a path string (`str(found_dir)` in the
source; the root part is already an absolute path string). -/
def joinParts (parts : List Str) : Str :=
  List.intercalate "/".data parts

/-- State threaded through the discovery loop of `scan_recursive_category`:
`(seen_paths, results)`. -/
abbrev RecScanAcc := List (List Str) × List ScanResult

/-- Handling of one discovered directory in recursive_scanner.py
`scan_recursive_category`: deduplicate, measure, drop if below the category
minimum size, and otherwise record a `ScanResult`. -/
def recScanFound (category : Category) (root_entry : FSEntry)
    (acc : RecScanAcc) (found_dir : List Str) : RecScanAcc :=
  let (seen_paths, results) := acc
  if found_dir ∈ seen_paths then acc
  else
    let seen' := seen_paths ++ [found_dir]
    match subtreeAt (found_dir.drop 1) root_entry with
    | none => (seen', results)
    | some sub =>
      let m := get_directory_size_fast sub
      if m.1 < category.min_size_bytes then (seen', results)
      else
        (seen', results ++
          [{ category_id := category.id, category_name := category.name,
             path := joinParts found_dir, size_bytes := m.1, file_count := m.2.1,
             dir_count := m.2.2, risk_level := category.risk_level, exists_ := true }])

/-- Handling of one search root in `scan_recursive_category`: skip roots that
do not exist or are not directories, then run every glob pattern's discovery
over the root's listing. -/
def recScanRoot (home : Str) (fs : FileSystem) (category : Category)
    (acc : RecScanAcc) (search_root : Str) : RecScanAcc :=
  let root_path := expand_path home search_root
  match fs root_path with
  | some (.dir rn children) =>
    category.glob_patterns.foldl (fun acc2 pattern =>
      (find_matching_directories [root_path] children (patternName pattern)).foldl
        (recScanFound category (.dir rn children)) acc2) acc
  | _ => acc

/-- Recursive-category scan (recursive_scanner.py `scan_recursive_category`):
a category without the `is_recursive` flag yields no results at all;
otherwise every search root × glob pattern is searched, found directories are
deduplicated, measured, filtered by the minimum size, and the surviving
results are sorted by size descending.  The progress callback has no
observable effect on the result and is not modelled. -/
def scan_recursive_category (home : Str) (fs : FileSystem) (category : Category) :
    List ScanResult :=
  if ¬ category.is_recursive then []
  else
    let acc := category.search_roots.foldl (recScanRoot home fs category) ([], [])
    acc.2.mergeSort (fun a b => decide (b.size_bytes ≤ a.size_bytes))

/-! Theorems about the embedded code. -/

/-- The validity verdict of `validate_cleanup_request` is the conjunction of
the size check and known-ness of every requested id. -/
theorem validate_fst (category_ids : List Str) (total_bytes : Nat) :
    (validate_cleanup_request category_ids total_bytes).1 =
      (decide (total_bytes ≤ MAX_CLEANUP_BYTES) &&
       category_ids.all (fun cid => (CATEGORIES.find? (fun p => p.1 = cid)).isSome)) := by
  unfold validate_cleanup_request
  by_cases hsz : total_bytes > MAX_CLEANUP_BYTES
  · rw [if_pos hsz]
    simp [Nat.not_le_of_lt hsz]
  · rw [if_neg hsz]
    cases hfind : category_ids.find? (fun cid => (CATEGORIES.find? (fun p => p.1 = cid)).isNone) with
    | none =>
      have hall : category_ids.all (fun cid => (CATEGORIES.find? (fun p => p.1 = cid)).isSome) = true := by
        rw [List.all_eq_true]
        intro cid hmem
        have := List.find?_eq_none.mp hfind cid hmem
        simp only [Bool.not_eq_true, Option.isNone_eq_false_iff] at this
        exact this
      simp [hall, Nat.le_of_not_lt hsz]
    | some cid =>
      have hmem := List.mem_of_find?_eq_some hfind
      have hnone := List.find?_some hfind
      have hall : category_ids.all (fun c => (CATEGORIES.find? (fun p => p.1 = c)).isSome) = false := by
        rw [Bool.eq_false_iff]
        intro hall
        have := List.all_eq_true.mp hall cid hmem
        rw [Option.isNone_iff_eq_none.mp hnone] at this
        simp at this
      simp [hall]

/-- Claim C1 counterexample: a request of exactly 100×1000³ bytes with no
category ids is accepted by `validate_cleanup_request`, although the claim
says any request of at least 100×1000³ bytes is rejected (the code's ceiling
is 100×1024³ and only strictly larger requests are rejected). -/
theorem validate_cleanup_request_claim_false :
    100 * 1000 ^ 3 ≥ 100 * 1000 ^ 3 ∧
    validate_cleanup_request [] (100 * 1000 ^ 3) = (true, none) :=
  ⟨Nat.le_refl _, by decide⟩

/-- Claim C1 (amended): `validate_cleanup_request` rejects (valid = false,
with an error message) any request whose `total_bytes` strictly exceeds
100×1024³ bytes, and any request containing a category id unknown to the
registry; the verdict is independent of the ordering of the id list; and a
request with `total_bytes` at most the ceiling and all ids known is accepted
with no error. -/
theorem validate_cleanup_request_spec :
    (∀ ids total, MAX_CLEANUP_BYTES < total →
      (validate_cleanup_request ids total).1 = false ∧
      (validate_cleanup_request ids total).2.isSome) ∧
    (∀ ids total cid, cid ∈ ids → get_category cid = none →
      (validate_cleanup_request ids total).1 = false ∧
      (validate_cleanup_request ids total).2.isSome) ∧
    (∀ ids ids' total, ids.Perm ids' →
      (validate_cleanup_request ids total).1 = (validate_cleanup_request ids' total).1) ∧
    (∀ ids total, total ≤ MAX_CLEANUP_BYTES →
      (∀ cid ∈ ids, (get_category cid).isSome) →
      validate_cleanup_request ids total = (true, none)) := by
  refine ⟨?_, ?_, ?_, ?_⟩
  · intro ids total h
    unfold validate_cleanup_request
    rw [if_pos h]
    exact ⟨rfl, rfl⟩
  · intro ids total cid hmem hnone
    have hfind : (CATEGORIES.find? (fun p => p.1 = cid)) = none := by
      unfold get_category at hnone
      exact Option.map_eq_none'.mp hnone
    unfold validate_cleanup_request
    by_cases hsz : total > MAX_CLEANUP_BYTES
    · rw [if_pos hsz]; exact ⟨rfl, rfl⟩
    · rw [if_neg hsz]
      cases hf : ids.find? (fun c => (CATEGORIES.find? (fun p => p.1 = c)).isNone) with
      | none =>
        have h := List.find?_eq_none.mp hf cid hmem
        simp [hfind] at h
      | some c => exact ⟨rfl, rfl⟩
  · intro ids ids' total hperm
    rw [validate_fst, validate_fst]
    by_cases hall : ids.all (fun cid => (CATEGORIES.find? (fun p => p.1 = cid)).isSome) = true
    · have hall' : ids'.all (fun cid => (CATEGORIES.find? (fun p => p.1 = cid)).isSome) = true := by
        rw [List.all_eq_true] at hall ⊢
        intro cid hmem
        exact hall cid (hperm.mem_iff.mpr hmem)
      rw [hall, hall']
    · have hall' : ids'.all (fun cid => (CATEGORIES.find? (fun p => p.1 = cid)).isSome) = false := by
        rw [Bool.eq_false_iff]
        intro h
        exact hall (by
          rw [List.all_eq_true] at h ⊢
          intro cid hmem
          exact h cid (hperm.mem_iff.mp hmem))
      rw [Bool.eq_false_iff.mpr hall, hall']
  · intro ids total hsz hknown
    unfold validate_cleanup_request
    rw [if_neg (Nat.not_lt_of_le hsz)]
    have hf : ids.find? (fun c => (CATEGORIES.find? (fun p => p.1 = c)).isNone) = none := by
      rw [List.find?_eq_none]
      intro cid hmem
      have hks := hknown cid hmem
      cases hc : CATEGORIES.find? (fun p => p.1 = cid) with
      | none =>
        unfold get_category at hks
        rw [hc] at hks
        simp at hks
      | some c => simp [hc]
    rw [hf]

/-- Claim C1 witness: the amended theorem applied at concrete requests. -/
theorem validate_cleanup_request_spec_witness :
    (validate_cleanup_request ["docker_data".data] (100 * 1024 ^ 3 + 1)).1 = false ∧
    (validate_cleanup_request ["no_such_category".data] 0).1 = false ∧
    (validate_cleanup_request ["npm_cache".data, "pip_cache".data] 12).1 =
      (validate_cleanup_request ["pip_cache".data, "npm_cache".data] 12).1 ∧
    validate_cleanup_request ["npm_cache".data, "pip_cache".data] 12 = (true, none) :=
  ⟨(validate_cleanup_request_spec.1 _ _ (by decide)).1,
   (validate_cleanup_request_spec.2.1 _ 0 "no_such_category".data (by decide) rfl).1,
   validate_cleanup_request_spec.2.2.1 _ _ 12 (by decide),
   validate_cleanup_request_spec.2.2.2 _ 12 (by decide)
     (by intro cid hmem; fin_cases hmem <;> rfl)⟩

/-- The deny-list loop of `is_path_safe` rejects the probe path itself. -/
theorem isPathSafeGo_self (home : Str) :
    ∀ l, isPathSafeGo home home l = false := by
  intro l
  induction l with
  | nil => simp [isPathSafeGo]
  | cons b rest ih =>
    unfold isPathSafeGo
    by_cases hb : home = expand_path home b
    · rw [if_pos (Or.inl hb), if_pos hb]
    · rw [if_neg hb, ite_self]
      exact ih

/-- The deny-list loop of `is_path_safe` accepts any path that is an exact
match of no expanded deny-list entry and is not the home directory. -/
theorem isPathSafeGo_of_forall_ne (home path : Str) (hh : path ≠ home) :
    ∀ l, (∀ b ∈ l, path ≠ expand_path home b) → isPathSafeGo home path l = true := by
  intro l
  induction l with
  | nil => intro _; simp [isPathSafeGo, hh]
  | cons b rest ih =>
    intro hne
    have hb : path ≠ expand_path home b := hne b (List.mem_cons_self b rest)
    have hr := ih (fun x hx => hne x (List.mem_cons_of_mem b hx))
    unfold isPathSafeGo
    rw [if_neg hb, ite_self]
    exact hr

/-- Helper: a path strictly below `~/Library/Caches` is never equal to a
string of fewer than 16 characters (all absolute deny-list entries are that
short). -/
theorem cachesPathNeShort (home s b : Str) (hb : b.length < 16) :
    home ++ "/Library/Caches/".data ++ s ≠ b := by
  intro h
  have hlen := congrArg List.length h
  simp [List.length_append] at hlen
  omega

/-- Helper: a path strictly below `~/Library/Caches` is never the home
directory itself. -/
theorem cachesPathNeHome (home s : Str) :
    home ++ "/Library/Caches/".data ++ s ≠ home := by
  intro h
  have hlen := congrArg List.length h
  simp [List.length_append] at hlen

/-- Helper: a path strictly below `~/Library/Caches` is never `home ++ c`
when `c` does not carry an `L` at index 1 (which separates it from every
`~`-relative deny-list entry). -/
theorem cachesPathNeTilde (home s c : Str) (h1 : c.get? 1 ≠ some 'L') :
    home ++ "/Library/Caches/".data ++ s ≠ home ++ c := by
  intro h
  rw [List.append_assoc] at h
  have h2 := List.append_cancel_left h
  have hL : ("/Library/Caches/".data ++ s).get? 1 = some 'L' := rfl
  exact h1 ((congrArg (fun l => l.get? 1) h2).symm.trans hL)

/-- Claim C3: `is_path_safe` blocks only exact matches of the deny-list plus
the home directory: for every home directory, the home path itself is unsafe,
and every path strictly inside `~/Library/Caches` is safe (being a child of a
deny-listed path does not block). -/
theorem is_path_safe_spec (home s : Str) :
    is_path_safe home home = false ∧
    is_path_safe home (home ++ "/Library/Caches/".data ++ s) = true := by
  refine ⟨isPathSafeGo_self home BLOCKED_PATHS, ?_⟩
  apply isPathSafeGo_of_forall_ne home _ (cachesPathNeHome home s)
  intro b hb
  simp only [BLOCKED_PATHS, List.mem_cons, List.not_mem_nil, or_false] at hb
  rcases hb with rfl | rfl | rfl | rfl | rfl | rfl | rfl | rfl | rfl | rfl | rfl | rfl | rfl | rfl | rfl | rfl | rfl | rfl
  · exact cachesPathNeTilde home s "/Documents".data (by decide)
  · exact cachesPathNeTilde home s "/Desktop".data (by decide)
  · exact cachesPathNeTilde home s "/Pictures".data (by decide)
  · exact cachesPathNeTilde home s "/Music".data (by decide)
  · exact cachesPathNeTilde home s "/Movies".data (by decide)
  · exact cachesPathNeTilde home s "/Code".data (by decide)
  · exact cachesPathNeTilde home s "/Projects".data (by decide)
  · exact cachesPathNeTilde home s "/Work".data (by decide)
  · exact cachesPathNeShort home s "/System".data (by decide)
  · exact cachesPathNeShort home s "/Library".data (by decide)
  · exact cachesPathNeShort home s "/Applications".data (by decide)
  · exact cachesPathNeShort home s "/usr".data (by decide)
  · exact cachesPathNeShort home s "/bin".data (by decide)
  · exact cachesPathNeShort home s "/sbin".data (by decide)
  · exact cachesPathNeShort home s "/var".data (by decide)
  · exact cachesPathNeShort home s "/private".data (by decide)
  · exact cachesPathNeShort home s "/Users".data (by decide)
  · exact cachesPathNeHome home s

/-- Helper: the head of a filtered-and-projected list is the projection of
the first element satisfying the filter. -/
theorem headD_filter_map {α β : Type} (p : α → Bool) (f : α → β) (d : β) :
    ∀ l : List α,
      ((l.filter p).map f).headD d = ((l.find? p).map f).getD d := by
  intro l
  induction l with
  | nil => rfl
  | cons x rest ih =>
    by_cases hx : p x
    · simp [List.filter_cons, List.find?_cons, hx]
    · simp [List.filter_cons, List.find?_cons, hx, ih]

/-- Claim C7: `aggregate_category_results` returns nothing on the empty list;
on a singleton it preserves the totals; on any non-empty list it sums sizes,
file counts and dir counts, reports existence iff some input exists, displays
the first input path that exists with non-zero size (or the first input's
path), and joins the non-empty input errors with `"; "`, the error being
absent exactly when there is no non-empty input error. -/
theorem aggregate_category_results_spec :
    aggregate_category_results [] = none ∧
    (∀ r, ∃ a, aggregate_category_results [r] = some a ∧
      a.size_bytes = r.size_bytes ∧ a.file_count = r.file_count ∧
      a.dir_count = r.dir_count) ∧
    (∀ first rest, ∃ a,
      aggregate_category_results (first :: rest) = some a ∧
      a.size_bytes = ((first :: rest).map (·.size_bytes)).sum ∧
      a.file_count = ((first :: rest).map (·.file_count)).sum ∧
      a.dir_count = ((first :: rest).map (·.dir_count)).sum ∧
      (a.exists_ = true ↔ ∃ r ∈ first :: rest, r.exists_ = true) ∧
      a.path = (((first :: rest).find? (fun r => r.exists_ && decide (0 < r.size_bytes))).map
                  (·.path)).getD first.path ∧
      (a.error = none ↔
        ∀ r ∈ first :: rest, strTruthy r.error = false) ∧
      (∀ errs, errs = (first :: rest).filterMap
          (fun r => if strTruthy r.error then r.error else none) →
        a.error = if errs.isEmpty then none
                  else some (List.intercalate "; ".data errs))) := by
  refine ⟨rfl, ?_, ?_⟩
  · intro r
    refine ⟨_, rfl, ?_, ?_, ?_⟩ <;> simp [aggregate_category_results]
  · intro first rest
    refine ⟨_, rfl, rfl, rfl, rfl, ?_, ?_, ?_, ?_⟩
    · simp [aggregate_category_results, List.any_eq_true]
    · dsimp only
      exact headD_filter_map _ _ _ (first :: rest)
    · constructor
      · intro h
        by_cases he : ((first :: rest).filterMap
            (fun r => if strTruthy r.error then r.error else none)).isEmpty
        · intro r hr
          rw [List.isEmpty_iff, List.filterMap_eq_nil_iff] at he
          have := he r hr
          by_cases hs : strTruthy r.error
          · rw [if_pos hs] at this
            cases herr : r.error with
            | none => simp [strTruthy, herr] at hs
            | some e => rw [herr] at this; simp at this
          · simp only [Bool.not_eq_true] at hs
            exact hs
        · simp only [he, if_false] at h
          simp at h
      · intro hall
        have he : ((first :: rest).filterMap
            (fun r => if strTruthy r.error then r.error else none)) = [] := by
          rw [List.filterMap_eq_nil_iff]
          intro r hr
          rw [if_neg (by simp [hall r hr])]
        simp [he]
    · intro errs herrs
      subst herrs
      rfl

/-- Claim C8 counterexample: a directory that measures successfully (6 bytes,
1 file) but whose removal raises `PermissionError`: the dry run reports the
measured `(6, 1)` while the `dry_run = false` call on the same state reports
`(0, 0)` with an error, so the claimed dry/wet equality fails for this
existing path. -/
theorem delete_path_claim_false :
    (delete_path (some (FSEntry.dir "d".data [FSEntry.file "a".data 6])) true
        (RemovalOutcome.permissionError "x".data)).1.1 = 6 ∧
    (delete_path (some (FSEntry.dir "d".data [FSEntry.file "a".data 6])) true
        (RemovalOutcome.permissionError "x".data)).1.2.1 = 1 ∧
    (delete_path (some (FSEntry.dir "d".data [FSEntry.file "a".data 6])) false
        (RemovalOutcome.permissionError "x".data)).1.1 = 0 ∧
    (delete_path (some (FSEntry.dir "d".data [FSEntry.file "a".data 6])) false
        (RemovalOutcome.permissionError "x".data)).1.2.1 = 0 ∧
    (delete_path (some (FSEntry.dir "d".data [FSEntry.file "a".data 6])) false
        (RemovalOutcome.permissionError "x".data)).1.2.2 ≠ none := by
  refine ⟨rfl, rfl, rfl, rfl, ?_⟩
  decide

/-- Claim C8 (amended): `delete_path` on a nonexistent path returns zero
totals and no error; a dry run leaves the filesystem unchanged and reports
exactly what a real deletion on the same state reports when the removal
itself succeeds; when the removal raises, the real run instead reports
`(0, 0, error)` while the dry run still reports the measured totals. -/
theorem delete_path_spec :
    (∀ dry_run removal, delete_path none dry_run removal = ((0, 0, none), none)) ∧
    (∀ target removal, (delete_path target true removal).2 = target) ∧
    (∀ target removal,
      (delete_path target true removal).1 = (delete_path target false RemovalOutcome.ok).1) ∧
    (∀ n cs msg,
      (delete_path (some (.dir n cs)) false (RemovalOutcome.permissionError msg)).1 =
        (0, 0, some ("Permission denied: ".data ++ msg))) ∧
    (∀ n sz msg,
      (delete_path (some (.file n sz)) false (RemovalOutcome.osError msg)).1 =
        (0, 0, some ("OS error: ".data ++ msg))) := by
  refine ⟨fun dry_run removal => rfl, ?_, ?_, fun n cs msg => rfl, fun n sz msg => rfl⟩
  · intro target removal
    cases target with
    | none => rfl
    | some e => cases e <;> rfl
  · intro target removal
    cases target with
    | none => rfl
    | some e => cases e <;> rfl

/-- Claim C9: every `CleanupResult` that `clean_category` returns satisfies
`success = true` exactly when the `error` field is absent, through every
branch (unknown category, native command execution including timeout and
exception, and the per-path loop including blocked paths and failed
removals). -/
theorem clean_category_success_iff_error_none :
    ∀ home fs outcome removal category_id dry_run r,
      clean_category home fs outcome removal category_id dry_run = some r →
      (r.success = true ↔ r.error = none) := by
  intro home fs outcome removal category_id dry_run r h
  unfold clean_category at h
  cases hg : get_category category_id with
  | none =>
    rw [hg] at h
    dsimp only at h
    simp only [Option.some.injEq] at h
    subst h
    simp
  | some category =>
    rw [hg] at h
    dsimp only at h
    by_cases hnative : strTruthy category.cleanup_command = true ∧ ¬ dry_run
    · rw [if_pos hnative] at h
      simp only [Option.some.injEq] at h
      subst h
      unfold run_native_cleanup
      cases dry_run with
      | true => simp
      | false =>
        cases outcome with
        | exited returncode stderr =>
          by_cases hrc : returncode = 0
          · simp [hrc]
          · simp [hrc]
        | timedOut => simp
        | raised msg => simp
    · rw [if_neg hnative] at h
      cases hd : ((category.paths.foldl (cleanCategoryStep home fs removal dry_run)
          (0, 0, [], [])).2.2.2.head?.orElse (fun _ => category.paths.head?)) with
      | none => rw [hd] at h; exact absurd h (by simp)
      | some display =>
        rw [hd] at h
        simp only [Option.some.injEq] at h
        subst h
        by_cases he : ((category.paths.foldl (cleanCategoryStep home fs removal dry_run)
            (0, 0, [], [])).2.2.1).isEmpty
        · simp [he]
        · simp [he]

/-- Claim C9 witness: the invariant applied to the result of a concrete call
(an unknown category id). -/
theorem clean_category_success_iff_error_none_witness :
    ∃ r, clean_category "/Users/u".data (fun _ => none) CmdOutcome.timedOut
        (fun _ => RemovalOutcome.ok) "no_such_category".data false = some r ∧
      (r.success = true ↔ r.error = none) :=
  ⟨_, rfl, clean_category_success_iff_error_none "/Users/u".data (fun _ => none)
    CmdOutcome.timedOut (fun _ => RemovalOutcome.ok) "no_such_category".data false _ rfl⟩

/-- Claim C10: `scan_recursive_category` on a category whose `is_recursive`
flag is false returns the empty list, whatever the filesystem, home
directory, declared paths, patterns and roots are. -/
theorem scan_recursive_category_nonrecursive :
    ∀ home fs category, category.is_recursive = false →
      scan_recursive_category home fs category = [] := by
  intro home fs category h
  unfold scan_recursive_category
  rw [if_pos (by simp [h])]

/-- Claim C10 witness: the theorem applied to a concrete non-recursive
category and a concrete filesystem. -/
theorem scan_recursive_category_nonrecursive_witness :
    scan_recursive_category "/Users/u".data (fun _ => none)
      { id := "npm_cache".data, name := "NPM Cache".data,
        paths := ["~/.npm/_cacache".data, "~/.npm/_logs".data],
        risk_level := RiskLevel.safe,
        cleanup_command := some "npm cache clean --force".data } = [] :=
  scan_recursive_category_nonrecursive _ _ _ rfl

/-- Concrete filesystem for the C2 counterexample: the npm cache directory
holds one 6-byte file; nothing else exists. -/
def npmDryRunFS : FileSystem := fun p =>
  if p = "/Users/u/.npm/_cacache".data then
    some (.dir "_cacache".data [.file "a".data 6])
  else none

/-- Claim C2 counterexample: `npm_cache` declares a native cleanup command,
yet a dry run does not report zero bytes — with a 6-byte file inside
`~/.npm/_cacache` the dry run reports `bytes_freed = 6`, because the
`cleanup_command and not dry_run` guard sends dry runs through the measuring
per-path loop rather than the native-command branch. -/
theorem clean_category_dry_run_claim_false :
    strTruthy ((get_category "npm_cache".data).bind (·.cleanup_command)) = true ∧
    (clean_category "/Users/u".data npmDryRunFS CmdOutcome.timedOut
        (fun _ => RemovalOutcome.ok) "npm_cache".data true).map
        (fun r => (r.bytes_freed, r.files_deleted, r.success))
      = some (6, 1, true) := by
  constructor
  · decide
  · decide

/-- Helper: a dry-run `delete_path` never consults the removal outcome. -/
theorem delete_path_dry_run_removal (target : Option FSEntry)
    (removal removal' : RemovalOutcome) :
    delete_path target true removal = delete_path target true removal' := by
  cases target with
  | none => rfl
  | some e => cases e <;> rfl

/-- Helper: a dry-run cleanup step never consults the removal outcomes. -/
theorem cleanCategoryStep_dry_run_removal (home : Str) (fs : FileSystem)
    (removal removal' : Str → RemovalOutcome) :
    cleanCategoryStep home fs removal true = cleanCategoryStep home fs removal' true := by
  funext acc path_str
  simp only [cleanCategoryStep]
  rw [delete_path_dry_run_removal (fs (expand_path home path_str))
    (removal (expand_path home path_str)) (removal' (expand_path home path_str))]

/-- Helper: the cleanup path loop leaves its accumulator unchanged when none
of the paths exists. -/
theorem cleanCategoryStep_foldl_nonexistent (home : Str) (fs : FileSystem)
    (removal : Str → RemovalOutcome) (dry_run : Bool) :
    ∀ (paths : List Str) (acc : CleanAcc),
      (∀ p ∈ paths, pathExistsb (fs (expand_path home p)) = false) →
      paths.foldl (cleanCategoryStep home fs removal dry_run) acc = acc := by
  intro paths
  induction paths with
  | nil => intro acc _; rfl
  | cons p rest ih =>
    intro acc hall
    have hp : pathExistsb (fs (expand_path home p)) = false :=
      hall p (List.mem_cons_self p rest)
    have hstep : cleanCategoryStep home fs removal dry_run acc p = acc := by
      simp [cleanCategoryStep, hp]
    rw [List.foldl_cons, hstep]
    exact ih acc (fun q hq => hall q (List.mem_cons_of_mem p hq))

/-- Claim C2 (amended): for every category (in particular those declaring a
native cleanup command), a dry run never executes the native command and
never attempts a removal — the result of `clean_category` with
`dry_run = true` is independent of both how the command and how the removals
would finish — and whenever none of the category's declared paths exists the
dry run returns `success = true` with zero bytes and files (when declared
paths do exist, the dry run may instead report their measured size, as the
counterexample shows). -/
theorem clean_category_dry_run_spec :
    (∀ home fs outcome outcome' removal removal' category_id,
      clean_category home fs outcome removal category_id true =
      clean_category home fs outcome' removal' category_id true) ∧
    (∀ home fs outcome removal category_id category,
      get_category category_id = some category →
      (∀ p ∈ category.paths, pathExistsb (fs (expand_path home p)) = false) →
      category.paths ≠ [] →
      ∃ r, clean_category home fs outcome removal category_id true = some r ∧
        r.success = true ∧ r.bytes_freed = 0 ∧ r.files_deleted = 0) := by
  constructor
  · intro home fs outcome outcome' removal removal' category_id
    unfold clean_category
    cases get_category category_id with
    | none => rfl
    | some category =>
      dsimp only
      have hc : ¬ (strTruthy category.cleanup_command = true ∧ ¬ (true : Bool) = true) := by
        simp
      rw [if_neg hc, if_neg hc, cleanCategoryStep_dry_run_removal home fs removal removal']
  · intro home fs outcome removal category_id category hg hall hne
    have key := cleanCategoryStep_foldl_nonexistent home fs removal true category.paths
      (0, 0, [], []) hall
    have hc : ¬ (strTruthy category.cleanup_command = true ∧ ¬ (true : Bool) = true) := by
      simp
    unfold clean_category
    rw [hg]
    dsimp only
    rw [if_neg hc, key]
    cases hpaths : category.paths with
    | nil => exact absurd hpaths hne
    | cons p ps =>
      simp only [hpaths]
      exact ⟨_, rfl, rfl, rfl, rfl⟩

/-- Claim C2 witness: the amended theorem applied to `npm_cache` over an
empty filesystem, with differing command and removal outcomes. -/
theorem clean_category_dry_run_spec_witness :
    clean_category "/Users/u".data (fun _ => none) CmdOutcome.timedOut
        (fun _ => RemovalOutcome.ok) "npm_cache".data true =
      clean_category "/Users/u".data (fun _ => none) (CmdOutcome.raised "boom".data)
        (fun _ => RemovalOutcome.osError "disk".data) "npm_cache".data true ∧
    ∃ r, clean_category "/Users/u".data (fun _ => none) CmdOutcome.timedOut
        (fun _ => RemovalOutcome.ok) "npm_cache".data true = some r ∧
      r.success = true ∧ r.bytes_freed = 0 ∧ r.files_deleted = 0 :=
  ⟨clean_category_dry_run_spec.1 _ _ _ _ _ _ _,
   clean_category_dry_run_spec.2 "/Users/u".data (fun _ => none) CmdOutcome.timedOut
     (fun _ => RemovalOutcome.ok) "npm_cache".data
     { id := "npm_cache".data, name := "NPM Cache".data,
       paths := ["~/.npm/_cacache".data, "~/.npm/_logs".data],
       risk_level := RiskLevel.safe,
       cleanup_command := some "npm cache clean --force".data }
     rfl
     (by intro p hp; fin_cases hp <;> rfl)
     (by decide)⟩

/-- Helper: after any `get_directory_size_cached` call, the cache holds an
entry for the path whose triple is exactly what the call returned. -/
theorem get_directory_size_cached_post (fs : FileSystem) (cache : SizeCache)
    (path : Str) (now : Int) (max_depth : Nat) :
    ∃ t', (get_directory_size_cached fs cache path now max_depth).2 path =
      some ((get_directory_size_cached fs cache path now max_depth).1, t') := by
  unfold get_directory_size_cached
  cases hc : cache path with
  | none => exact ⟨now, by simp⟩
  | some entry =>
    by_cases hfresh : now - entry.2 < CACHE_TTL
    · exact ⟨entry.2, by simp [hfresh, hc]⟩
    · exact ⟨now, by simp [hfresh]⟩

/-- Claim C6: a cache entry younger than 300 seconds is returned by
`get_directory_size_cached` without rescanning (the cache state is also left
unchanged); once the entry's age reaches the TTL the result is recomputed
from the filesystem and the entry replaced; consequently two calls for the
same path, the second landing within the TTL window of the entry left by the
first (with no interleaved cache clear), return identical triples. -/
theorem get_directory_size_cached_spec :
    (∀ fs max_depth cache path (now : Int) v t0,
      cache path = some (v, t0) → now - t0 < CACHE_TTL →
      get_directory_size_cached fs cache path now max_depth = (v, cache)) ∧
    (∀ fs max_depth cache path (now : Int) v t0,
      cache path = some (v, t0) → ¬ now - t0 < CACHE_TTL →
      (get_directory_size_cached fs cache path now max_depth).1 =
        measureAt fs path max_depth ∧
      (get_directory_size_cached fs cache path now max_depth).2 path =
        some (measureAt fs path max_depth, now)) ∧
    (∀ fs max_depth cache path (t1 t2 : Int) w t0,
      (get_directory_size_cached fs cache path t1 max_depth).2 path = some (w, t0) →
      t2 - t0 < CACHE_TTL →
      (get_directory_size_cached fs
          ((get_directory_size_cached fs cache path t1 max_depth).2) path t2 max_depth).1 =
        (get_directory_size_cached fs cache path t1 max_depth).1) := by
  refine ⟨?_, ?_, ?_⟩
  · intro fs max_depth cache path now v t0 hc hfresh
    unfold get_directory_size_cached
    rw [hc]
    simp [hfresh]
  · intro fs max_depth cache path now v t0 hc hstale
    unfold get_directory_size_cached
    rw [hc]
    simp [hstale]
  · intro fs max_depth cache path t1 t2 w t0 hentry hfresh
    obtain ⟨t', hpost⟩ := get_directory_size_cached_post fs cache path t1 max_depth
    rw [hentry] at hpost
    have hw : w = (get_directory_size_cached fs cache path t1 max_depth).1 :=
      congrArg (fun p => p.1) (Option.some.inj hpost)
    conv_lhs => rw [get_directory_size_cached]
    rw [hentry]
    simp [hfresh, hw]

/-- Claim C6 witness: a concrete fresh hit, a concrete expiry, and a concrete
pair of calls within the TTL window, all via the theorem. -/
theorem get_directory_size_cached_spec_witness :
    get_directory_size_cached (fun _ => none)
        (fun k => if k = "/p".data then some ((5, 1, 0), 0) else none)
        "/p".data 100 20 =
      ((5, 1, 0), (fun k => if k = "/p".data then some ((5, 1, 0), 0) else none)) ∧
    (get_directory_size_cached (fun _ => none)
        (fun k => if k = "/p".data then some ((5, 1, 0), 0) else none)
        "/p".data 400 20).1 = measureAt (fun _ => none) "/p".data 20 ∧
    (get_directory_size_cached (fun _ => none)
        ((get_directory_size_cached (fun _ => none)
          (fun k => if k = "/p".data then some ((5, 1, 0), 0) else none)
          "/p".data 100 20).2) "/p".data 200 20).1 =
      (get_directory_size_cached (fun _ => none)
        (fun k => if k = "/p".data then some ((5, 1, 0), 0) else none)
        "/p".data 100 20).1 :=
  ⟨get_directory_size_cached_spec.1 _ 20 _ _ 100 (5, 1, 0) 0 rfl (by decide),
   (get_directory_size_cached_spec.2.1 _ 20 _ _ 400 (5, 1, 0) 0 rfl (by decide)).1,
   get_directory_size_cached_spec.2.2 _ 20 _ _ 100 200 (5, 1, 0) 0 rfl (by decide)⟩

/-- Sizes of the direct regular files of a directory listing. -/
def directFileSizes (entries : List FSEntry) : List Nat :=
  entries.filterMap (fun e =>
    match e with
    | .file _ sz => some sz
    | _ => none)

/-- The immediate subdirectories in a directory listing. -/
def subdirs (entries : List FSEntry) : List FSEntry :=
  entries.filter (fun e =>
    match e with
    | .dir _ _ => true
    | _ => false)

mutual

/-- Height of a filesystem entry: how many directory levels sit below it. -/
def FSEntry.height : FSEntry → Nat
  | .file _ _ => 0
  | .symlink _ => 0
  | .denied _ => 0
  | .dir _ children => 1 + heightList children

/-- Height of a directory listing: the maximum height of its entries. -/
def heightList : List FSEntry → Nat
  | [] => 0
  | e :: rest => max e.height (heightList rest)

end

/-- Listing of a directory entry (empty for non-directories). -/
def FSEntry.listing : FSEntry → List FSEntry
  | .dir _ cs => cs
  | _ => []

/-- A directory chain `n + 1` levels deep with a single 1-byte file at the
bottom. -/
def deepChain : Nat → FSEntry
  | 0 => .dir "c".data [.file "f".data 1]
  | n + 1 => .dir "c".data [deepChain n]

/-- Unfolding of `scanDir` on a listing starting with a regular file. -/
theorem scanDir_succ_file (fuel : Nat) (n : Str) (sz : Nat) (rest : List FSEntry) :
    scanDir (fuel + 1) (.file n sz :: rest) =
      (sz + (scanDir (fuel + 1) rest).1, 1 + (scanDir (fuel + 1) rest).2.1,
       (scanDir (fuel + 1) rest).2.2) := rfl

/-- Unfolding of `scanDir` on a listing starting with a subdirectory. -/
theorem scanDir_succ_dir (fuel : Nat) (n : Str) (cs rest : List FSEntry) :
    scanDir (fuel + 1) (.dir n cs :: rest) =
      ((scanDir fuel cs).1 + (scanDir (fuel + 1) rest).1,
       (scanDir fuel cs).2.1 + (scanDir (fuel + 1) rest).2.1,
       1 + (scanDir fuel cs).2.2 + (scanDir (fuel + 1) rest).2.2) := rfl

/-- Unfolding of `scanDir` on a listing starting with a symlink. -/
theorem scanDir_succ_symlink (fuel : Nat) (n : Str) (rest : List FSEntry) :
    scanDir (fuel + 1) (.symlink n :: rest) = scanDir (fuel + 1) rest := rfl

/-- Unfolding of `scanDir` on a listing starting with an inaccessible
entry. -/
theorem scanDir_succ_denied (fuel : Nat) (n : Str) (rest : List FSEntry) :
    scanDir (fuel + 1) (.denied n :: rest) = scanDir (fuel + 1) rest := rfl

/-- Helper: the byte total of a scan with budget `m + 1` is the sum of the
direct file sizes plus the byte totals of the immediate subdirectories
scanned with budget `m`. -/
theorem scanDir_fst_structural (m : Nat) :
    ∀ entries, (scanDir (m + 1 + 1) entries).1 =
      ((subdirs entries).map (fun sub => (get_directory_size_fast sub m).1)).sum +
      (directFileSizes entries).sum := by
  intro entries
  induction entries with
  | nil => simp [scanDir, subdirs, directFileSizes]
  | cons e rest ih =>
    cases e with
    | file n sz =>
      rw [scanDir_succ_file]
      simp [subdirs, directFileSizes, List.filter_cons, List.filterMap_cons] at ih ⊢
      omega
    | dir n cs =>
      rw [scanDir_succ_dir]
      simp [subdirs, directFileSizes, List.filter_cons, List.filterMap_cons,
        get_directory_size_fast] at ih ⊢
      omega
    | symlink n =>
      rw [scanDir_succ_symlink]
      simpa [subdirs, directFileSizes, List.filter_cons, List.filterMap_cons] using ih
    | denied n =>
      rw [scanDir_succ_denied]
      simpa [subdirs, directFileSizes, List.filter_cons, List.filterMap_cons] using ih

/-- Helper: an entry's height is bounded by its listing's height. -/
theorem height_le_heightList :
    ∀ (entries : List FSEntry), ∀ e ∈ entries, e.height ≤ heightList entries := by
  intro entries
  induction entries with
  | nil => intro e he; cases he
  | cons x rest ih =>
    intro e he
    rcases List.mem_cons.mp he with rfl | hmem
    · simp [heightList]
    · exact le_trans (ih e hmem) (by simp [heightList])

/-- Helper: the scan totals do not depend on the fuel once the fuel covers
the height of the listing. -/
theorem scanDir_stable :
    ∀ (f g : Nat) (entries : List FSEntry),
      heightList entries ≤ f → heightList entries ≤ g →
      scanDir (f + 1) entries = scanDir (g + 1) entries := by
  intro f
  induction f using Nat.strong_induction_on with
  | _ f ihf =>
    intro g entries
    induction entries with
    | nil => intro _ _; rfl
    | cons e rest ihrest =>
      intro hf hg
      simp only [heightList] at hf hg
      obtain ⟨hef, hrf⟩ := Nat.max_le.mp hf
      obtain ⟨heg, hrg⟩ := Nat.max_le.mp hg
      have hrest := ihrest hrf hrg
      cases e with
      | file n sz => rw [scanDir_succ_file, scanDir_succ_file, hrest]
      | symlink n => rw [scanDir_succ_symlink, scanDir_succ_symlink]; exact hrest
      | denied n => rw [scanDir_succ_denied, scanDir_succ_denied]; exact hrest
      | dir n cs =>
        simp only [FSEntry.height] at hef heg
        cases f with
        | zero => omega
        | succ f' =>
          cases g with
          | zero => omega
          | succ g' =>
            have hcs : scanDir (f' + 1) cs = scanDir (g' + 1) cs :=
              ihf f' (Nat.lt_succ_self f') g' cs (by omega) (by omega)
            rw [scanDir_succ_dir, scanDir_succ_dir, hrest, hcs]

/-- Claim C5 counterexample: for a directory chain 22 directories deep the
structural-recursion equation fails at the default depth budget: the root
scan misses the deepest file (totalling 0 bytes) while the subdirectory's own
scan, restarting with a fresh budget, reaches it (totalling 1 byte). -/
theorem get_directory_size_fast_claim_false :
    ¬ ((get_directory_size_fast (deepChain 21)).1 =
       ((subdirs (deepChain 21).listing).map
         (fun sub => (get_directory_size_fast sub).1)).sum +
       (directFileSizes (deepChain 21).listing).sum) := by
  decide

/-- Claim C5 (amended): with the depth budget made explicit, `computeSize` at
budget `m + 1` of a directory equals the sum of its direct regular file sizes
plus `computeSize` at budget `m` over its immediate subdirectories (symlinks
never followed, inaccessible entries contributing zero); at the default
budget the claimed structural-recursion equation holds for every directory
whose listing is at most 20 levels high. -/
theorem get_directory_size_fast_spec :
    (∀ (m : Nat) (name : Str) (entries : List FSEntry),
      (get_directory_size_fast (.dir name entries) (m + 1)).1 =
        ((subdirs entries).map (fun sub => (get_directory_size_fast sub m).1)).sum +
        (directFileSizes entries).sum) ∧
    (∀ (name : Str) (entries : List FSEntry), heightList entries ≤ 20 →
      (get_directory_size_fast (.dir name entries)).1 =
        ((subdirs entries).map (fun sub => (get_directory_size_fast sub).1)).sum +
        (directFileSizes entries).sum) := by
  constructor
  · intro m name entries
    exact scanDir_fst_structural m entries
  · intro name entries h20
    have ha := scanDir_fst_structural 19 entries
    have hmap : (subdirs entries).map (fun sub => (get_directory_size_fast sub 19).1) =
        (subdirs entries).map (fun sub => (get_directory_size_fast sub 20).1) := by
      apply List.map_congr_left
      intro sub hsub
      obtain ⟨hmem, hdir⟩ := List.mem_filter.mp hsub
      cases sub with
      | file n sz => simp at hdir
      | symlink n => simp at hdir
      | denied n => simp at hdir
      | dir n cs =>
        have hh : (FSEntry.dir n cs).height ≤ 20 :=
          le_trans (height_le_heightList entries _ hmem) h20
        simp only [FSEntry.height] at hh
        show (scanDir 20 cs).1 = (scanDir 21 cs).1
        rw [scanDir_stable 19 20 cs (by omega) (by omega)]
    calc (get_directory_size_fast (.dir name entries)).1
        = ((subdirs entries).map (fun sub => (get_directory_size_fast sub 19).1)).sum +
            (directFileSizes entries).sum := ha
      _ = ((subdirs entries).map (fun sub => (get_directory_size_fast sub 20).1)).sum +
            (directFileSizes entries).sum := by rw [hmap]

/-- Claim C5 witness: the amended equation applied to a concrete two-level
directory. -/
theorem get_directory_size_fast_spec_witness :
    (get_directory_size_fast (FSEntry.dir "d".data
        [FSEntry.file "f".data 3,
         FSEntry.dir "s".data [FSEntry.file "g".data 4]])).1 =
      ((subdirs [FSEntry.file "f".data 3,
                 FSEntry.dir "s".data [FSEntry.file "g".data 4]]).map
        (fun sub => (get_directory_size_fast sub).1)).sum +
      (directFileSizes [FSEntry.file "f".data 3,
                        FSEntry.dir "s".data [FSEntry.file "g".data 4]]).sum :=
  get_directory_size_fast_spec.2 "d".data _ (by decide)

/-- Unfolding of the discovery worker at exhausted depth. -/
theorem fmdGo_zero (pattern : Str) (skip_inside_match : Bool) (root : List Str)
    (entries : List FSEntry) :
    fmdGo pattern skip_inside_match 0 root entries = [] := rfl

/-- Unfolding of the discovery worker on an empty listing. -/
theorem fmdGo_succ_nil (pattern : Str) (skip_inside_match : Bool) (d : Nat)
    (root : List Str) :
    fmdGo pattern skip_inside_match (d + 1) root [] = [] := rfl

/-- Unfolding of the discovery worker on a listing starting with a file. -/
theorem fmdGo_succ_file (pattern : Str) (skip_inside_match : Bool) (d : Nat)
    (root : List Str) (n : Str) (sz : Nat) (rest : List FSEntry) :
    fmdGo pattern skip_inside_match (d + 1) root (.file n sz :: rest) =
      fmdGo pattern skip_inside_match (d + 1) root rest := rfl

/-- Unfolding of the discovery worker on a listing starting with a symlink. -/
theorem fmdGo_succ_symlink (pattern : Str) (skip_inside_match : Bool) (d : Nat)
    (root : List Str) (n : Str) (rest : List FSEntry) :
    fmdGo pattern skip_inside_match (d + 1) root (.symlink n :: rest) =
      fmdGo pattern skip_inside_match (d + 1) root rest := rfl

/-- Unfolding of the discovery worker on a listing starting with an
inaccessible entry. -/
theorem fmdGo_succ_denied (pattern : Str) (skip_inside_match : Bool) (d : Nat)
    (root : List Str) (n : Str) (rest : List FSEntry) :
    fmdGo pattern skip_inside_match (d + 1) root (.denied n :: rest) =
      fmdGo pattern skip_inside_match (d + 1) root rest := rfl

/-- Unfolding of the discovery worker on a listing starting with a
directory. -/
theorem fmdGo_succ_dir (pattern : Str) (skip_inside_match : Bool) (d : Nat)
    (root : List Str) (name : Str) (children : List FSEntry) (rest : List FSEntry) :
    fmdGo pattern skip_inside_match (d + 1) root (.dir name children :: rest) =
      (if pyStartsWith name ".".data ∧ name ≠ pattern ∧
          (¬ (name = ".venv".data ∨ name = ".virtualenv".data) ∨
           ¬ (pattern = ".venv".data ∨ pattern = ".virtualenv".data)) then []
       else if name ∈ SKIP_DIRECTORIES ∧ name ≠ pattern then []
       else if name = pattern then
         (root ++ [name]) ::
           (if skip_inside_match then []
            else fmdGo pattern skip_inside_match d (root ++ [name]) children)
       else fmdGo pattern skip_inside_match d (root ++ [name]) children)
      ++ fmdGo pattern skip_inside_match (d + 1) root rest := rfl

/-- Helper: with `skip_inside_match`, every path yielded by the discovery
worker has the pattern as its last part and nowhere earlier below the root:
matches cannot be nested, because the traversal never recurses into a
directory whose name is the pattern. -/
theorem fmdGo_shape (pattern : Str) :
    ∀ (d : Nat) (entries : List FSEntry) (root p : List Str),
      p ∈ fmdGo pattern true d root entries →
      ∃ q, p = root ++ (q ++ [pattern]) ∧ pattern ∉ q := by
  intro d
  induction d with
  | zero =>
    intro entries root p hp
    rw [fmdGo_zero] at hp
    cases hp
  | succ d ihd =>
    intro entries
    induction entries with
    | nil =>
      intro root p hp
      rw [fmdGo_succ_nil] at hp
      cases hp
    | cons e rest ihrest =>
      intro root p hp
      cases e with
      | file n sz => rw [fmdGo_succ_file] at hp; exact ihrest root p hp
      | symlink n => rw [fmdGo_succ_symlink] at hp; exact ihrest root p hp
      | denied n => rw [fmdGo_succ_denied] at hp; exact ihrest root p hp
      | dir name children =>
        rw [fmdGo_succ_dir] at hp
        rcases List.mem_append.mp hp with hleft | hright
        · split at hleft
          · cases hleft
          · split at hleft
            · cases hleft
            · split at hleft
              · rename_i hpat
                simp at hleft
                subst hpat
                exact ⟨[], by simp [hleft], by simp⟩
              · rename_i hnpat
                obtain ⟨q, hq, hnq⟩ := ihd children (root ++ [name]) p hleft
                refine ⟨name :: q, ?_, ?_⟩
                · rw [hq]; simp
                · intro hmem
                  rcases List.mem_cons.mp hmem with heq | hq'
                  · exact hnpat heq.symm
                  · exact hnq hq'
        · exact ihrest root p hright

/-- Claim C4: no two paths yielded by `find_matching_directories` (with the
default skip-inside-match behaviour) are in an ancestor/descendant relation:
once a directory is yielded as a match, the traversal does not recurse into
it, so nothing nested inside a yielded path is ever yielded.  Paths are part
lists, and a strict ancestor is a proper prefix of the part list. -/
theorem find_matching_directories_antichain :
    ∀ (root : List Str) (entries : List FSEntry) (pattern : Str) (max_depth : Nat)
      (A B : List Str),
      A ∈ find_matching_directories root entries pattern max_depth true →
      B ∈ find_matching_directories root entries pattern max_depth true →
      A ≠ B → ¬ A <+: B := by
  intro root entries pattern max_depth A B hA hB hne hpre
  obtain ⟨qa, hqa, hnqa⟩ := fmdGo_shape pattern max_depth entries root A hA
  obtain ⟨qb, hqb, hnqb⟩ := fmdGo_shape pattern max_depth entries root B hB
  obtain ⟨t, ht⟩ := hpre
  have htne : t ≠ [] := by
    intro h
    subst h
    exact hne (by simpa using ht)
  rw [hqa, hqb, List.append_assoc] at ht
  have hcore : qa ++ ([pattern] ++ t) = qb ++ [pattern] := by
    have := List.append_cancel_left ht
    simpa [List.append_assoc] using this
  rcases List.append_eq_append_iff.mp hcore with ⟨a', ha1, ha2⟩ | ⟨c', hc1, hc2⟩
  · cases a' with
    | nil =>
      simp only [List.nil_append] at ha2
      have : t = [] := by simpa using ha2
      exact htne this
    | cons x xs =>
      have hx : x = pattern := by
        have := congrArg (fun l => l.headD pattern) ha2
        simpa using this.symm
      subst hx
      exact hnqb (by rw [ha1]; exact List.mem_append_right qa (List.mem_cons_self x xs))
  · have := congrArg List.length hc2
    simp at this
    exact htne (List.length_eq_zero.mp (by omega))

/-- Claim C4 witness: the theorem applied to two concrete matches found in a
concrete tree. -/
theorem find_matching_directories_antichain_witness :
    ¬ ["/r".data, "a".data, "node_modules".data] <+:
      ["/r".data, "node_modules".data] :=
  find_matching_directories_antichain ["/r".data]
    [FSEntry.dir "a".data [FSEntry.dir "node_modules".data
       [FSEntry.dir "node_modules".data []]],
     FSEntry.dir "node_modules".data []]
    "node_modules".data 15
    ["/r".data, "a".data, "node_modules".data]
    ["/r".data, "node_modules".data]
    (by decide) (by decide) (by decide)

end Uncruft
